import Mathlib

/-!
# Grocery List Management API: item store, credentials and session tokens

A shallow embedding of `data_store.go`, `auth.go`, `jwt.go` and the login handler of
`api_auth.go`.

Conventions of the embedding

* A Go `int64` is an `Int` kept in the range `[-2^63, 2^63)`; `++` wraps (`wrapInt64`).
* A `time.Time` is the instant it denotes, in nanoseconds (`Time := Int`);
  `time.Now()` is an explicit argument of every function that reads the clock, one
  argument per read.
* A Go `error` is a `GoError`; a function returning `(*T, error)` returns `Except GoError T`.
* A Go `map[int64]*GroceryItem` is an association list from keys to records; the order of
  the list carries no meaning, and the order in which `range` visits the map is supplied by
  the environment. `AddItem` allocates a fresh record for every key, so no two keys share a
  pointer and the records are held by value; an assignment through a stored pointer is a
  replacement of the record under its key (`mapModify`).
* The Go standard library and the third-party packages (`sort.Slice`, `strings.ToLower`,
  map iteration, gorm, bcrypt, golang-jwt) are not part of the repository: they enter as
  explicit parameters (`GoEnv`, `DBOps`, `Bcrypt`, `MAC`); the contract assumed of the
  first is the predicate `GoEnv.Lawful`, the others are left arbitrary.
-/

namespace Grocery

/-! ## Basic types -/

/-- An instant, in nanoseconds since the epoch (`time.Time` up to the instant it denotes). -/
abbrev Time := Int

/-- Go's `time.Time.Before`. -/
def Time.Before (t u : Time) : Bool := decide (t < u)

/-- Two's-complement wrap-around of a mathematical integer into the `int64` range. -/
def wrapInt64 (x : Int) : Int := (x + 2 ^ 63) % 2 ^ 64 - 2 ^ 63

/-- Values of Go's `error` interface that occur in the package. -/
inductive GoError where
  /-- The value `errors.New(msg)`. -/
  | errorsNew (msg : String)
  /-- The sentinel `gorm.ErrRecordNotFound`. -/
  | ErrRecordNotFound
  /-- Any other error handed back by a library (storage, hashing, signing, token parsing). -/
  | external (msg : String)
deriving DecidableEq, Repr

/-- The method `Error()` of an error value: its message. -/
def GoError.Error : GoError → String
  | .errorsNew msg => msg
  | .ErrRecordNotFound => "record not found"
  | .external msg => msg

/-- Modelled from the spec: the declaration of `GroceryItemCreate` (the create/update payload)
is not among the sources; its fields are the ones `AddItem` and `UpdateItem` read. -/
structure GroceryItemCreate where
  Name : String
  Quantity : Int
  Unit : String
  Category : String
  Notes : String
deriving DecidableEq, Repr, Inhabited

/-- Modelled from the spec: the declaration of `GroceryItem` used by `data_store.go` (with the
field `Id`) is not among the sources; its fields are the ones `AddItem` writes. -/
structure GroceryItem where
  Name : String
  Quantity : Int
  Unit : String
  Category : String
  Notes : String
  Id : Int
  CreatedAt : Time
  UpdatedAt : Time
  Purchased : Bool
deriving DecidableEq, Repr, Inhabited

/-! ## Go maps as association lists -/

/-- The Go expression `v, exists := m[k]`. -/
def mapGet (m : List (Int × GroceryItem)) (k : Int) : Option GroceryItem :=
  m.lookup k

/-- The Go statement `m[k] = v`. -/
def mapSet (m : List (Int × GroceryItem)) (k : Int) (v : GroceryItem) :
    List (Int × GroceryItem) :=
  (k, v) :: m.filter (fun e => e.1 != k)

/-- The Go statement `delete(m, k)`. -/
def mapDelete (m : List (Int × GroceryItem)) (k : Int) : List (Int × GroceryItem) :=
  m.filter (fun e => e.1 != k)

/-- Assignment through the pointer stored under key `k`: the map itself is untouched, the
record it points to is replaced by `v`. -/
def mapModify (m : List (Int × GroceryItem)) (k : Int) (v : GroceryItem) :
    List (Int × GroceryItem) :=
  m.map (fun e => if e.1 == k then (e.1, v) else e)

/-- The keys of a map. -/
def mapKeys (m : List (Int × GroceryItem)) : List Int := m.map Prod.fst

/-- The values of a map. -/
def mapValues (m : List (Int × GroceryItem)) : List GroceryItem := m.map Prod.snd

/-! ## `data_store.go` -/

/-- The struct `GroceryStore` (the lock is not modelled: every operation runs under it). -/
structure GroceryStore where
  items : List (Int × GroceryItem)
  lastID : Int
deriving DecidableEq, Repr

/-- The global `Store`: an empty map and `lastID = 0`. -/
def Store : GroceryStore := { items := [], lastID := 0 }

/-- `GroceryStore.AddItem`; `now` is the value of the single `time.Now()` read. -/
def AddItem (s : GroceryStore) (now : Time) (item : GroceryItemCreate) :
    GroceryStore × Except GoError GroceryItem :=
  let lastID := wrapInt64 (s.lastID + 1)
  let newItem : GroceryItem :=
    { Name := item.Name
      Quantity := item.Quantity
      Unit := item.Unit
      Category := item.Category
      Notes := item.Notes
      Id := lastID
      CreatedAt := now
      UpdatedAt := now
      Purchased := false }
  ({ items := mapSet s.items lastID newItem, lastID := lastID }, .ok newItem)

/-- `GroceryStore.GetItemByID`. -/
def GetItemByID (s : GroceryStore) (id : Int) : Except GoError GroceryItem :=
  match mapGet s.items id with
  | none => .error (.errorsNew "item not found")
  | some item => .ok item

/-- `GroceryStore.UpdateItem`; `now` is the value of the `time.Now()` read. -/
def UpdateItem (s : GroceryStore) (now : Time) (id : Int) (update : GroceryItemCreate) :
    GroceryStore × Except GoError GroceryItem :=
  match mapGet s.items id with
  | none => (s, .error (.errorsNew "item not found"))
  | some item =>
    let item1 : GroceryItem :=
      { item with
        Name := update.Name
        Quantity := update.Quantity
        Unit := update.Unit
        Category := update.Category
        Notes := update.Notes
        UpdatedAt := now }
    ({ s with items := mapModify s.items id item1 }, .ok item1)

/-- `GroceryStore.DeleteItem`; the result is the returned `error` (`none` for `nil`). -/
def DeleteItem (s : GroceryStore) (id : Int) : GroceryStore × Option GoError :=
  match mapGet s.items id with
  | none => (s, some (.errorsNew "item not found"))
  | some _ => ({ s with items := mapDelete s.items id }, none)

/-- The struct `ListItemsParams`; a nil pointer is `none`. -/
structure ListItemsParams where
  Name : Option String
  Category : Option String
  Purchased : Option Bool
  SortBy : String
  SortDesc : Bool
deriving DecidableEq, Repr

/-- What `ListItems` takes from the Go runtime and standard library. -/
structure GoEnv where
  /-- The order in which `for _, item := range m` visits the entries of `m`. -/
  mapRange : List (Int × GroceryItem) → List (Int × GroceryItem)
  /-- The effect of `sort.Slice(x, less)` on the slice `x`, with `less` read on elements. -/
  sortSlice : (GroceryItem → GroceryItem → Bool) → List GroceryItem → List GroceryItem
  /-- The function `strings.ToLower`. -/
  toLower : String → String

/-- Go's `strings.Contains`. -/
def stringsContains (s substr : String) : Bool := decide (substr.data <:+: s.data)

/-- The function `comparator`. -/
def comparator (a b : GroceryItem) (sortBy : String) : Bool :=
  if sortBy = "createdAt" then a.CreatedAt.Before b.CreatedAt
  else if sortBy = "updatedAt" then a.UpdatedAt.Before b.UpdatedAt
  else decide (a.Id < b.Id)

/-- The condition of the first `if` of the loop of `ListItems` (filter by name). -/
def skipByName (env : GoEnv) (params : ListItemsParams) (item : GroceryItem) : Bool :=
  match params.Name with
  | none => false
  | some name => !stringsContains (env.toLower item.Name) (env.toLower name)

/-- The condition of the second `if` of the loop of `ListItems` (filter by category). -/
def skipByCategory (env : GoEnv) (params : ListItemsParams) (item : GroceryItem) : Bool :=
  match params.Category with
  | none => false
  | some category => !stringsContains (env.toLower item.Category) (env.toLower category)

/-- The condition of the third `if` of the loop of `ListItems` (filter by purchased). -/
def skipByPurchased (params : ListItemsParams) (item : GroceryItem) : Bool :=
  match params.Purchased with
  | none => false
  | some purchased => item.Purchased != purchased

/-- The body of the filtering loop of `ListItems` for one item: `true` when the item is
appended to `filteredItems`, `false` when one of the three `continue`s is taken. -/
def keepItem (env : GoEnv) (params : ListItemsParams) (item : GroceryItem) : Bool :=
  if skipByName env params item then false
  else if skipByCategory env params item then false
  else if skipByPurchased params item then false
  else true

/-- The filter of `ListItems` in the words of its description: every filter that is provided
holds of the item (case-insensitive substring on name and on category, equality on purchased). -/
def matchesFilter (env : GoEnv) (params : ListItemsParams) (item : GroceryItem) : Prop :=
  (∀ name, params.Name = some name →
    (env.toLower name).data <:+: (env.toLower item.Name).data) ∧
  (∀ category, params.Category = some category →
    (env.toLower category).data <:+: (env.toLower item.Category).data) ∧
  (∀ purchased, params.Purchased = some purchased → item.Purchased = purchased)

/-- The closure handed to `sort.Slice` by `ListItems`. -/
def sortLess (params : ListItemsParams) (a b : GroceryItem) : Bool :=
  let less := comparator a b params.SortBy
  if params.SortDesc then !less else less

/-- `GroceryStore.ListItems`. -/
def ListItems (env : GoEnv) (s : GroceryStore) (params : ListItemsParams) : List GroceryItem :=
  let filteredItems := ((env.mapRange s.items).map Prod.snd).filter (keepItem env params)
  if params.SortBy ≠ "" then env.sortSlice (sortLess params) filteredItems
  else filteredItems

/-! ## Sequences of calls on the store -/

/-- One call of the public interface of the store, with the clock value it reads. -/
inductive Call where
  /-- The call `AddItem(item)`. -/
  | add (now : Time) (item : GroceryItemCreate)
  /-- The call `GetItemByID(id)`. -/
  | get (id : Int)
  /-- The call `UpdateItem(id, update)`. -/
  | update (now : Time) (id : Int) (update : GroceryItemCreate)
  /-- The call `DeleteItem(id)`. -/
  | delete (id : Int)
  /-- The call `ListItems(params)`. -/
  | list (env : GoEnv) (params : ListItemsParams)

/-- What a call hands back to its caller. -/
inductive Reply where
  | item (r : Except GoError GroceryItem)
  | err (e : Option GoError)
  | list (l : List GroceryItem)

/-- Executes one call: the store afterwards and the reply. -/
def Call.exec (s : GroceryStore) : Call → GroceryStore × Reply
  | .add now item => ((AddItem s now item).1, .item (AddItem s now item).2)
  | .get id => (s, .item (GetItemByID s id))
  | .update now id upd =>
    ((UpdateItem s now id upd).1, .item (UpdateItem s now id upd).2)
  | .delete id => ((DeleteItem s id).1, .err (DeleteItem s id).2)
  | .list env params => (s, .list (ListItems env s params))

/-- The store after a sequence of calls. -/
def runCalls (s : GroceryStore) : List Call → GroceryStore
  | [] => s
  | c :: cs => runCalls (c.exec s).1 cs

/-- The id carried by the reply of a call, when the call is an `AddItem`. -/
def addedId : Call → Reply → Option Int
  | .add _ _, .item (.ok it) => some it.Id
  | _, _ => none

/-- The ids returned by the `AddItem` calls of a sequence, in call order. -/
def returnedIds (s : GroceryStore) : List Call → List Int
  | [] => []
  | c :: cs => (addedId c (c.exec s).2).toList ++ returnedIds (c.exec s).1 cs

/-- Whether a call is an `AddItem`. -/
def Call.isAdd : Call → Bool
  | .add _ _ => true
  | _ => false

/-- The number of `AddItem` calls in a sequence. -/
def numAdds (cs : List Call) : Nat := cs.countP Call.isAdd

/-! ## The part of the Go library used as reference instance

`sort.Slice` sorts slices of at most twelve elements by the insertion sort of the package
`sort`; that algorithm, a map iteration in storage order (or in reverse storage order) and
ASCII lower-casing form the environments on which the statements below are evaluated. -/

/-- The inner loop of insertion sort, which swaps the element at `j` with its left neighbour
and decrements `j` as long as `j > a && less(j, j-1)`; it acts on the already sorted prefix
held in reverse (nearest element first). -/
def siftLeft (less : GroceryItem → GroceryItem → Bool) (x : GroceryItem) :
    List GroceryItem → List GroceryItem
  | [] => [x]
  | p :: ps => if less x p then p :: siftLeft less x ps else x :: p :: ps

/-- Insertion sort as in the Go standard library: the elements are taken from left to right
and each is moved left while it is `less` than its left neighbour. -/
def insertionSort (less : GroceryItem → GroceryItem → Bool) (data : List GroceryItem) :
    List GroceryItem :=
  (data.foldl (fun acc x => siftLeft less x acc) []).reverse

/-- ASCII lower-casing, the restriction of `strings.ToLower` to ASCII text. -/
def asciiLower (s : String) : String := String.mk (s.data.map Char.toLower)

/-- The reference environment. -/
def refEnv : GoEnv :=
  { mapRange := fun m => m
    sortSlice := insertionSort
    toLower := asciiLower }

/-- The second reference environment: iteration in reverse storage order. -/
def revEnv : GoEnv :=
  { mapRange := List.reverse
    sortSlice := insertionSort
    toLower := asciiLower }

/-- The assumed contract of the Go runtime and library functions used by `ListItems`. -/
structure GoEnv.Lawful (env : GoEnv) : Prop where
  /-- A `range` loop visits every entry of the map exactly once. -/
  mapRange_perm : ∀ m, (env.mapRange m).Perm m
  /-- `sort.Slice` permutes the slice. -/
  sortSlice_perm : ∀ less data, (env.sortSlice less data).Perm data
  /-- For a `less` that is a transitive ordering in the sense of the documentation of
  `sort.Interface` (both `less` and its negation are transitive), no two neighbours of the
  sorted slice are strictly out of order. -/
  sortSlice_ordered : ∀ less data,
    (∀ a b c, less a b = true → less b c = true → less a c = true) →
    (∀ a b c, less a b = false → less b c = false → less a c = false) →
    List.Chain' (fun x y => less y x = true → less x y = true) (env.sortSlice less data)

/-! ## `auth.go` -/

/-- The zero value of `time.Time` (January 1 of year 1, UTC). -/
def zeroTime : Time := -62135596800 * 1000000000

/-- The struct `User`. -/
structure User where
  ID : Int
  Username : String
  Password : String
  CreatedAt : Time
  UpdatedAt : Time
deriving DecidableEq, Repr, Inhabited

/-- The struct `UserRegister`. -/
structure UserRegister where
  Username : String
  Password : String
  RepeatedPassword : String
deriving DecidableEq, Repr, Inhabited

/-- The struct `UserLogin`. -/
structure UserLogin where
  Username : String
  Password : String
deriving DecidableEq, Repr, Inhabited

/-- `UserRegister.Validate`; `none` is the `nil` error. -/
def UserRegister.Validate (r : UserRegister) : Option GoError :=
  if r.Username = "" then some (.errorsNew "username is required")
  else if r.Password = "" then some (.errorsNew "password is required")
  else if r.RepeatedPassword = "" then some (.errorsNew "repeated_password is required")
  else if r.Password ≠ r.RepeatedPassword then some (.errorsNew "passwords do not match")
  else none

/-- `UserLogin.Validate`; `none` is the `nil` error. -/
def UserLogin.Validate (l : UserLogin) : Option GoError :=
  if l.Username = "" then some (.errorsNew "username is required")
  else if l.Password = "" then some (.errorsNew "password is required")
  else none

/-- The two gorm calls made on the global `DB`, over an arbitrary type `σ` of states of the
identity store. Each takes the state before the call and gives the state after it. -/
structure DBOps (σ : Type) where
  /-- The call `DB.Where("username = ?", name).First(&user)`: `result.Error`, or the record
  written to `user`. -/
  First : σ → String → σ × Except GoError User
  /-- The call `DB.Create(&user)`: `result.Error`, or `user` as completed by the store. -/
  Create : σ → User → σ × Except GoError User

/-- The two bcrypt functions used by the package. -/
structure Bcrypt where
  /-- The call `bcrypt.GenerateFromPassword(password, bcrypt.DefaultCost)`. -/
  GenerateFromPassword : String → Except GoError String
  /-- The call `bcrypt.CompareHashAndPassword(hash, password)`; `none` is `nil`. -/
  CompareHashAndPassword : String → String → Option GoError

/-- The function `RegisterUser`, from the state `st` of the identity store. -/
def RegisterUser {σ : Type} (db : DBOps σ) (bc : Bcrypt) (st : σ) (userReg : UserRegister) :
    σ × Except GoError User :=
  match userReg.Validate with
  | some err => (st, .error err)
  | none =>
    match db.First st userReg.Username with
    | (st1, .ok _) => (st1, .error (.errorsNew "username already exists"))
    | (st1, .error e) =>
      if e ≠ .ErrRecordNotFound then (st1, .error e)
      else
        match bc.GenerateFromPassword userReg.Password with
        | .error err => (st1, .error err)
        | .ok hashedPassword =>
          let user : User :=
            { ID := 0
              Username := userReg.Username
              Password := hashedPassword
              CreatedAt := zeroTime
              UpdatedAt := zeroTime }
          match db.Create st1 user with
          | (st2, .error e2) => (st2, .error e2)
          | (st2, .ok created) => (st2, .ok created)

/-- The function `LoginUser`, from the state `st` of the identity store. -/
def LoginUser {σ : Type} (db : DBOps σ) (bc : Bcrypt) (st : σ) (userLogin : UserLogin) :
    σ × Except GoError User :=
  match userLogin.Validate with
  | some err => (st, .error err)
  | none =>
    match db.First st userLogin.Username with
    | (st1, .error e) =>
      if e = .ErrRecordNotFound then (st1, .error (.errorsNew "invalid username or password"))
      else (st1, .error e)
    | (st1, .ok user) =>
      match bc.CompareHashAndPassword user.Password userLogin.Password with
      | some _ => (st1, .error (.errorsNew "invalid username or password"))
      | none => (st1, .ok user)

/-! ## `jwt.go` -/

/-- The registered claims set by `GenerateJWT` (`jwt.RegisteredClaims`; audience and token id
stay empty). A `*jwt.NumericDate` is the instant it holds. -/
structure RegisteredClaims where
  Issuer : String
  Subject : String
  ExpiresAt : Option Time
  NotBefore : Option Time
  IssuedAt : Option Time
deriving DecidableEq, Repr

/-- The struct `JWTClaims`, with the embedded registered claims as a field. -/
structure JWTClaims where
  UserID : Int
  Username : String
  Registered : RegisteredClaims
deriving DecidableEq, Repr

/-- A signed token string `header.claims.signature`, held as the three parts it encodes: the
`alg` of the header, the claims and the signature. -/
structure Token where
  alg : String
  claims : JWTClaims
  signature : String
deriving DecidableEq, Repr

/-- The keyed hash of golang-jwt: the signature of the signing input made of the header
with `alg` and of the claims, under `key`. -/
abbrev MAC := (alg : String) → (key : String) → JWTClaims → String

/-- The duration `time.Second`, in nanoseconds. -/
def Second : Int := 1000000000

/-- The duration `time.Hour`, in nanoseconds. -/
def Hour : Int := 3600 * Second

/-- The function `jwt.NewNumericDate`: the time truncated to `jwt.TimePrecision`, which is
one second. -/
def NewNumericDate (t : Time) : Time := t - t % Second

/-- The function `getJWTSecret`; the argument is the value of `os.Getenv("JWT_SECRET")`. -/
def getJWTSecret (envSecret : String) : String :=
  if envSecret = "" then "dupa123dupa123dupa123dupa123dupa123dupa123" else envSecret

/-- The function `GenerateJWT`; `now1`, `now2` and `now3` are the values of its three
`time.Now()` reads, in the order of evaluation, and `jwtSecretKey` is the package variable. -/
def GenerateJWT (mac : MAC) (jwtSecretKey : String) (now1 now2 now3 : Time) (user : User) :
    Except GoError Token :=
  let expirationTime := now1 + 24 * Hour
  let claims : JWTClaims :=
    { UserID := user.ID
      Username := user.Username
      Registered :=
        { ExpiresAt := some (NewNumericDate expirationTime)
          IssuedAt := some (NewNumericDate now2)
          NotBefore := some (NewNumericDate now3)
          Issuer := "grocery-list-api"
          Subject := toString user.ID } }
  .ok { alg := "HS256", claims := claims, signature := mac "HS256" jwtSecretKey claims }

/-- The key function handed to `jwt.ParseWithClaims` by `ParseJWT`: the key for a method of
the HMAC family, an error for any other method. -/
def keyFunc (jwtSecretKey : String) (alg : String) : Except GoError String :=
  if alg = "HS256" ∨ alg = "HS384" ∨ alg = "HS512" then .ok jwtSecretKey
  else .error (.external ("unexpected signing method: " ++ alg))

/-- The check of the time claims made by the validator of golang-jwt at the instant `now`:
an `exp` that is set must lie after `now`, an `nbf` that is set must not. -/
def validateClaims (now : Time) (c : RegisteredClaims) : Option GoError :=
  match c.ExpiresAt with
  | some exp =>
    if ¬ now < exp then some (.external "token is expired")
    else
      match c.NotBefore with
      | some nbf => if now < nbf then some (.external "token is not valid yet") else none
      | none => none
  | none =>
    match c.NotBefore with
    | some nbf => if now < nbf then some (.external "token is not valid yet") else none
    | none => none

/-- The function `jwt.ParseWithClaims` of golang-jwt on a well-formed token string: the key
is asked from the key function, the signature is checked, the time claims are validated at
`now`; the result is the claims and the flag `token.Valid`. -/
def ParseWithClaims (mac : MAC) (now : Time) (tokenString : Token)
    (kf : String → Except GoError String) : Except GoError (JWTClaims × Bool) :=
  match kf tokenString.alg with
  | .error e => .error e
  | .ok key =>
    if tokenString.signature ≠ mac tokenString.alg key tokenString.claims then
      .error (.external "signature is invalid")
    else
      match validateClaims now tokenString.claims.Registered with
      | some e => .error e
      | none => .ok (tokenString.claims, true)

/-- The function `ParseJWT`; `now` is the clock value read by the validator. -/
def ParseJWT (mac : MAC) (jwtSecretKey : String) (now : Time) (tokenString : Token) :
    Except GoError JWTClaims :=
  match ParseWithClaims mac now tokenString (keyFunc jwtSecretKey) with
  | .error err => .error err
  | .ok (claims, valid) => if valid then .ok claims else .error (.errorsNew "invalid token")

/-! ## `api_auth.go` -/

/-- Modelled from the spec: the declaration of the response body `Error` is not among the
sources; its fields are the two the handlers set (`message`, `details`). -/
structure Error where
  Message : String
  Details : String
deriving DecidableEq, Repr

/-- What a handler writes with `c.JSON`: a status code with an `Error` body, or the status
code with the user and token of a successful login. -/
inductive Response where
  | error (status : Nat) (body : Error)
  | login (status : Nat) (id : Int) (username : String) (createdAt : Time) (token : Token)
deriving DecidableEq, Repr

/-- The handler `AuthAPI.Login`; `bound` is the outcome of `c.ShouldBindJSON(&userLogin)`. -/
def AuthAPI.Login {σ : Type} (db : DBOps σ) (bc : Bcrypt) (mac : MAC) (jwtSecretKey : String)
    (st : σ) (bound : Except GoError UserLogin) (now1 now2 now3 : Time) : σ × Response :=
  match bound with
  | .error err =>
    (st, .error 400 { Message := "Invalid request body", Details := err.Error })
  | .ok userLogin =>
    match LoginUser db bc st userLogin with
    | (st1, .error _) =>
      (st1, .error 401
        { Message := "Authentication failed", Details := "Invalid username or password" })
    | (st1, .ok user) =>
      match GenerateJWT mac jwtSecretKey now1 now2 now3 user with
      | .error _ =>
        (st1, .error 500
          { Message := "Token generation failed"
            Details := "Could not generate authentication token" })
      | .ok token => (st1, .login 200 user.ID user.Username user.CreatedAt token)

/-! ## Reference instances of the identity store, the hash and the keyed hash -/

/-- An identity store held in memory: the records and the number of calls served. -/
structure MemDB where
  users : List User
  calls : Nat
deriving DecidableEq, Repr

/-- The gorm calls on the in-memory identity store; a username can be stored once. -/
def memDB : DBOps MemDB :=
  { First := fun st name =>
      match st.users.find? (fun u => u.Username == name) with
      | some u => ({ st with calls := st.calls + 1 }, .ok u)
      | none => ({ st with calls := st.calls + 1 }, .error .ErrRecordNotFound)
    Create := fun st user =>
      if st.users.any (fun u => u.Username == user.Username) then
        ({ st with calls := st.calls + 1 }, .error (.external "duplicate key"))
      else
        let stored : User := { user with ID := st.users.length + 1 }
        ({ users := st.users ++ [stored], calls := st.calls + 1 }, .ok stored) }

/-- A stand-in for bcrypt: the hash is the password behind a fixed tag. -/
def tagBcrypt : Bcrypt :=
  { GenerateFromPassword := fun pw => .ok ("$2a$" ++ pw)
    CompareHashAndPassword := fun hash pw =>
      if hash = "$2a$" ++ pw then none else some (.external "hash mismatch") }

/-- A stand-in for the keyed hash: the key, the method and the subject joined. -/
def tagMAC : MAC := fun alg key claims => key ++ "/" ++ alg ++ "/" ++ claims.Registered.Subject

/-! ## Example data -/

/-- An item named "Milk", created at instant 100. -/
def milk : GroceryItem :=
  { Name := "Milk", Quantity := 2, Unit := "L", Category := "Dairy", Notes := "",
    Id := 1, CreatedAt := 100, UpdatedAt := 100, Purchased := false }

/-- An item named "Bread", created at instant 200. -/
def bread : GroceryItem :=
  { Name := "Bread", Quantity := 1, Unit := "", Category := "Bakery", Notes := "",
    Id := 2, CreatedAt := 200, UpdatedAt := 200, Purchased := false }

/-- An item named "Soy MILK", created at instant 300. -/
def soyMilk : GroceryItem :=
  { Name := "Soy MILK", Quantity := 1, Unit := "L", Category := "Dairy", Notes := "",
    Id := 3, CreatedAt := 300, UpdatedAt := 300, Purchased := false }

/-- A store holding the three example items. -/
def exampleStore : GroceryStore :=
  { items := [(1, milk), (2, bread), (3, soyMilk)], lastID := 3 }

/-- The payload of the example item "Milk". -/
def milkCreate : GroceryItemCreate :=
  { Name := "Milk", Quantity := 2, Unit := "L", Category := "", Notes := "" }

/-- `n` rounds of an `AddItem` followed by the `DeleteItem` of the item just added, on a
store in which one item was added before: round `i` (from 0) adds and deletes the id
`i + 2` (wrapped into `int64`). The store never holds more than two items. -/
def addDeleteRounds : Nat → List Call
  | 0 => []
  | n + 1 => addDeleteRounds n ++ [Call.add 0 milkCreate, Call.delete (wrapInt64 (n + 2))]

/-- The item stored by `AddItem` for the payload `milkCreate` at instant 0 in the empty
store. -/
def firstMilk : GroceryItem :=
  { Name := "Milk", Quantity := 2, Unit := "L", Category := "", Notes := "",
    Id := 1, CreatedAt := 0, UpdatedAt := 0, Purchased := false }

/-- The parameters of a listing without filter and without sort key. -/
def noParams : ListItemsParams :=
  { Name := none, Category := none, Purchased := none, SortBy := "", SortDesc := false }

/-- The example user "ann" with id 7. -/
def ann : User :=
  { ID := 7, Username := "ann", Password := "$2a$secret", CreatedAt := 5, UpdatedAt := 5 }

/-! ## Invariants of the store -/

/-- Every entry of the store holds an unpurchased item under the key equal to its id. -/
def KeyInv (s : GroceryStore) : Prop :=
  ∀ e ∈ s.items, e.2.Purchased = false ∧ e.1 = e.2.Id

/-- No key occurs twice in the map of the store. -/
def KeysNodup (s : GroceryStore) : Prop := (mapKeys s.items).Nodup

/-- The counter is not negative and every stored id lies between 1 and the counter. -/
def BoundInv (s : GroceryStore) : Prop :=
  0 ≤ s.lastID ∧ ∀ e ∈ s.items, 1 ≤ e.2.Id ∧ e.2.Id ≤ s.lastID

/-! ## Lemmas on maps -/

theorem lookup_cons_ite (j a : Int) (b : GroceryItem) (m : List (Int × GroceryItem)) :
    List.lookup j ((a, b) :: m) = if j = a then some b else List.lookup j m := by
  by_cases h : j = a
  · subst h; simp [List.lookup]
  · have hja : (j == a) = false := by simpa using h
    simp [List.lookup, hja, h]

theorem mapGet_mapDelete (m : List (Int × GroceryItem)) (k j : Int) :
    mapGet (mapDelete m k) j = if j = k then none else mapGet m j := by
  unfold mapGet mapDelete
  induction m with
  | nil => simp
  | cons e m ih =>
    obtain ⟨a, b⟩ := e
    by_cases ha : a = k
    · have hf : List.filter (fun e => e.1 != k) ((a, b) :: m) =
          List.filter (fun e => e.1 != k) m :=
        List.filter_cons_of_neg (by simp [ha])
      rw [hf, ih, lookup_cons_ite]
      by_cases hj : j = k
      · simp [hj]
      · have hja : j ≠ a := by rw [ha]; exact hj
        simp [hj, hja]
    · have hf : List.filter (fun e => e.1 != k) ((a, b) :: m) =
          (a, b) :: List.filter (fun e => e.1 != k) m :=
        List.filter_cons_of_pos (by simp [ha])
      rw [hf, lookup_cons_ite, lookup_cons_ite, ih]
      by_cases hj : j = a
      · subst hj; simp [ha]
      · simp [hj]

theorem mapGet_mapSet (m : List (Int × GroceryItem)) (k j : Int) (v : GroceryItem) :
    mapGet (mapSet m k v) j = if j = k then some v else mapGet m j := by
  have h := mapGet_mapDelete m k j
  unfold mapGet mapDelete at h
  unfold mapGet mapSet
  rw [lookup_cons_ite, h]
  by_cases hj : j = k <;> simp [hj]

theorem mapGet_mapModify (m : List (Int × GroceryItem)) (k j : Int) (v : GroceryItem) :
    mapGet (mapModify m k v) j =
      if j = k then (mapGet m k).map (fun _ => v) else mapGet m j := by
  unfold mapGet mapModify
  induction m with
  | nil => simp
  | cons e m ih =>
    obtain ⟨a, b⟩ := e
    rw [List.map_cons, lookup_cons_ite]
    by_cases ha : a = k
    · have hak : (a == k) = true := by simp [ha]
      simp only [hak, if_true, lookup_cons_ite, ih]
      by_cases hj : j = k
      · simp [hj, ha]
      · have hja : j ≠ a := by rw [ha]; exact hj
        simp [hj, hja]
    · have hak : (a == k) = false := by simp [ha]
      have hka : k ≠ a := fun h => ha h.symm
      simp only [hak, lookup_cons_ite, ih]
      by_cases hj : j = a
      · have hjk : j ≠ k := by rw [hj]; exact ha
        simp [hj, ha]
      · by_cases hjk : j = k
        · simp [hjk, hka]
        · simp [hj, hjk]

theorem mapKeys_mapModify (m : List (Int × GroceryItem)) (k : Int) (v : GroceryItem) :
    mapKeys (mapModify m k v) = mapKeys m := by
  unfold mapKeys mapModify
  rw [List.map_map]
  apply List.map_congr_left
  intro e _
  show (if (e.1 == k) = true then (e.1, v) else e).1 = e.1
  split_ifs <;> rfl

theorem mapGet_isSome_iff (m : List (Int × GroceryItem)) (k : Int) :
    (mapGet m k).isSome = true ↔ k ∈ mapKeys m := by
  unfold mapGet mapKeys
  induction m with
  | nil => simp
  | cons e m ih =>
    obtain ⟨a, b⟩ := e
    rw [lookup_cons_ite]
    by_cases h : k = a
    · simp [h]
    · simp [h, ih]

theorem mapGet_eq_none_iff (m : List (Int × GroceryItem)) (k : Int) :
    mapGet m k = none ↔ k ∉ mapKeys m := by
  rw [← mapGet_isSome_iff]
  cases mapGet m k <;> simp

theorem mem_of_mapGet_eq_some (m : List (Int × GroceryItem)) (k : Int) (v : GroceryItem)
    (h : mapGet m k = some v) : (k, v) ∈ m := by
  unfold mapGet at h
  induction m with
  | nil => simp at h
  | cons e m ih =>
    obtain ⟨a, b⟩ := e
    rw [lookup_cons_ite] at h
    by_cases hk : k = a
    · simp [hk] at h
      simp [hk, h]
    · simp only [hk, if_false] at h
      exact List.mem_cons_of_mem _ (ih h)

/-! ## The item store: lookups, updates and deletions -/

theorem GetItemByID_of_mapGet (s : GroceryStore) (id : Int) (item : GroceryItem)
    (h : mapGet s.items id = some item) : GetItemByID s id = .ok item := by
  unfold GetItemByID; rw [h]

theorem GetItemByID_of_not_mem (s : GroceryStore) (id : Int) (h : id ∉ mapKeys s.items) :
    GetItemByID s id = .error (.errorsNew "item not found") := by
  unfold GetItemByID; rw [(mapGet_eq_none_iff _ _).2 h]

theorem exists_mapGet_of_mem (m : List (Int × GroceryItem)) (id : Int) (h : id ∈ mapKeys m) :
    ∃ item, mapGet m id = some item := by
  have := (mapGet_isSome_iff m id).2 h
  cases hg : mapGet m id with
  | none => rw [hg] at this; simp at this
  | some item => exact ⟨item, rfl⟩

/-- C4: for every store and every id that is a key of it, `DeleteItem(id)` succeeds;
afterwards `GetItemByID(id)` fails with "item not found", a second `DeleteItem(id)` fails
with "item not found", and `GetItemByID(j)` for every other id `j` gives what it gave before
the deletion. -/
theorem C4_delete_then_get_not_found (s : GroceryStore) (id : Int)
    (h : id ∈ mapKeys s.items) :
    (DeleteItem s id).2 = none ∧
    GetItemByID (DeleteItem s id).1 id = .error (.errorsNew "item not found") ∧
    (DeleteItem (DeleteItem s id).1 id).2 = some (.errorsNew "item not found") ∧
    ∀ j, j ≠ id → GetItemByID (DeleteItem s id).1 j = GetItemByID s j := by
  obtain ⟨item, hitem⟩ := exists_mapGet_of_mem s.items id h
  have hdel : DeleteItem s id = ({ s with items := mapDelete s.items id }, none) := by
    unfold DeleteItem; rw [hitem]
  have hgone : mapGet (mapDelete s.items id) id = none := by
    rw [mapGet_mapDelete]; simp
  refine ⟨by rw [hdel], ?_, ?_, ?_⟩
  · rw [hdel]; unfold GetItemByID; simp only [hgone]
  · rw [hdel]; unfold DeleteItem; simp only [hgone]
  · intro j hj
    rw [hdel]; unfold GetItemByID
    simp only [mapGet_mapDelete, if_neg hj]

/-- C5: for every store and id, when the id is not a key of the store `GetItemByID`,
`UpdateItem` and `DeleteItem` each fail with the error "item not found" and hand back the
store unchanged (items and `lastID`); when the id is a key each of the three succeeds. -/
theorem C5_not_found_iff_absent (s : GroceryStore) (id : Int) (now : Time)
    (update : GroceryItemCreate) :
    (id ∉ mapKeys s.items →
      GetItemByID s id = .error (.errorsNew "item not found") ∧
      UpdateItem s now id update = (s, .error (.errorsNew "item not found")) ∧
      DeleteItem s id = (s, some (.errorsNew "item not found"))) ∧
    (id ∈ mapKeys s.items →
      (∃ item, GetItemByID s id = .ok item) ∧
      (∃ item, (UpdateItem s now id update).2 = .ok item) ∧
      (DeleteItem s id).2 = none) := by
  constructor
  · intro h
    have hnone := (mapGet_eq_none_iff s.items id).2 h
    refine ⟨GetItemByID_of_not_mem s id h, ?_, ?_⟩
    · unfold UpdateItem; rw [hnone]
    · unfold DeleteItem; rw [hnone]
  · intro h
    obtain ⟨item, hitem⟩ := exists_mapGet_of_mem s.items id h
    refine ⟨⟨item, GetItemByID_of_mapGet s id item hitem⟩, ?_, ?_⟩
    · unfold UpdateItem; rw [hitem]; exact ⟨_, rfl⟩
    · unfold DeleteItem; rw [hitem]

/-- C9: for every store, every id that is a key of it and every payload, `UpdateItem`
returns and stores an item whose name, quantity, unit, category and notes are those of the
payload and whose `UpdatedAt` is the clock value read, with the id, `CreatedAt` and
`Purchased` of the item stored before; every other key maps to what it mapped to, the keys
are the same and `lastID` is the same. -/
theorem C9_update_frame (s : GroceryStore) (id : Int) (now : Time)
    (update : GroceryItemCreate) (h : id ∈ mapKeys s.items) :
    ∃ old new,
      mapGet s.items id = some old ∧
      (UpdateItem s now id update).2 = .ok new ∧
      mapGet (UpdateItem s now id update).1.items id = some new ∧
      new.Name = update.Name ∧ new.Quantity = update.Quantity ∧ new.Unit = update.Unit ∧
      new.Category = update.Category ∧ new.Notes = update.Notes ∧ new.UpdatedAt = now ∧
      new.Id = old.Id ∧ new.CreatedAt = old.CreatedAt ∧ new.Purchased = old.Purchased ∧
      (∀ j, j ≠ id →
        mapGet (UpdateItem s now id update).1.items j = mapGet s.items j) ∧
      mapKeys (UpdateItem s now id update).1.items = mapKeys s.items ∧
      (UpdateItem s now id update).1.lastID = s.lastID := by
  obtain ⟨old, hold⟩ := exists_mapGet_of_mem s.items id h
  refine ⟨old, { old with
      Name := update.Name, Quantity := update.Quantity, Unit := update.Unit,
      Category := update.Category, Notes := update.Notes, UpdatedAt := now }, hold, ?_⟩
  unfold UpdateItem
  rw [hold]
  refine ⟨rfl, ?_, rfl, rfl, rfl, rfl, rfl, rfl, rfl, rfl, rfl, ?_, ?_, rfl⟩
  · simp only [mapGet_mapModify, if_true, hold, Option.map_some']
  · intro j hj
    simp only [mapGet_mapModify, if_neg hj]
  · exact mapKeys_mapModify _ _ _

/-! ## Wrap-around arithmetic -/

theorem wrapInt64_of_inRange (x : Int) (h1 : -2 ^ 63 ≤ x) (h2 : x < 2 ^ 63) :
    wrapInt64 x = x := by
  unfold wrapInt64; omega

theorem wrapInt64_idem (x : Int) : wrapInt64 (wrapInt64 x) = wrapInt64 x := by
  unfold wrapInt64; omega

theorem wrapInt64_wrap_add (x y : Int) : wrapInt64 (wrapInt64 x + y) = wrapInt64 (x + y) := by
  unfold wrapInt64; omega

/-! ## Sequences of calls: the counter and the returned ids -/

theorem numAdds_cons (c : Call) (cs : List Call) :
    numAdds (c :: cs) = numAdds cs + (if c.isAdd = true then 1 else 0) := by
  unfold numAdds; rw [List.countP_cons]

theorem exec_lastID (s : GroceryStore) (c : Call) :
    (c.exec s).1.lastID = if c.isAdd = true then wrapInt64 (s.lastID + 1) else s.lastID := by
  cases c with
  | add now item => rfl
  | get id => rfl
  | update now id upd =>
    simp only [Call.exec, Call.isAdd, UpdateItem]
    cases mapGet s.items id <;> rfl
  | delete id =>
    simp only [Call.exec, Call.isAdd, DeleteItem]
    cases mapGet s.items id <;> rfl
  | list env params => rfl

theorem runCalls_lastID (cs : List Call) (s : GroceryStore)
    (hs : wrapInt64 s.lastID = s.lastID) :
    (runCalls s cs).lastID = wrapInt64 (s.lastID + numAdds cs) := by
  induction cs generalizing s with
  | nil => simp [runCalls, numAdds, hs]
  | cons c cs ih =>
    have hl := exec_lastID s c
    rw [runCalls, numAdds_cons]
    by_cases hc : c.isAdd = true
    · rw [if_pos hc] at hl
      rw [ih _ (by rw [hl, wrapInt64_idem]), hl, wrapInt64_wrap_add, if_pos hc]
      congr 1; push_cast; ring
    · rw [if_neg hc] at hl
      rw [ih _ (by rw [hl, hs]), hl, if_neg hc]
      simp

theorem returnedIds_eq (cs : List Call) (s : GroceryStore)
    (hs : wrapInt64 s.lastID = s.lastID) :
    returnedIds s cs =
      (List.range (numAdds cs)).map (fun i : Nat => wrapInt64 (s.lastID + 1 + i)) := by
  induction cs generalizing s with
  | nil => simp [returnedIds, numAdds]
  | cons c cs ih =>
    have hl := exec_lastID s c
    rw [returnedIds, numAdds_cons]
    cases c with
    | add now item =>
      simp only [Call.isAdd, if_true] at hl ⊢
      rw [ih _ (by rw [hl, wrapInt64_idem]), hl, List.range_succ_eq_map, List.map_cons,
        List.map_map]
      simp only [Call.exec, AddItem, addedId, Option.toList, List.singleton_append,
        Nat.cast_zero, add_zero, List.cons.injEq, true_and]
      apply List.map_congr_left
      intro i _
      simp only [Function.comp, Nat.succ_eq_add_one, Nat.cast_add, Nat.cast_one]
      rw [add_assoc (wrapInt64 (s.lastID + 1)), wrapInt64_wrap_add]; congr 1; ring
    | get id =>
      simp only [Call.isAdd] at hl ⊢
      rw [ih _ (by rw [hl]; exact hs), hl]
      simp [Call.exec, addedId]
    | update now id upd =>
      simp only [Call.isAdd] at hl ⊢
      rw [ih _ (by rw [hl]; exact hs), hl]
      simp [Call.exec, addedId]
    | delete id =>
      simp only [Call.isAdd] at hl ⊢
      rw [ih _ (by rw [hl]; exact hs), hl]
      simp [Call.exec, addedId]
    | list env params =>
      simp only [Call.isAdd] at hl ⊢
      rw [ih _ (by rw [hl]; exact hs), hl]
      simp [Call.exec, addedId]

theorem Store_lastID_wrap : wrapInt64 Store.lastID = Store.lastID := by
  unfold wrapInt64 Store; norm_num

theorem numAdds_append (as bs : List Call) : numAdds (as ++ bs) = numAdds as + numAdds bs := by
  unfold numAdds; rw [List.countP_append]

theorem numAdds_addDeleteRounds (n : Nat) : numAdds (addDeleteRounds n) = n := by
  induction n with
  | zero => rfl
  | succ n ih =>
    rw [addDeleteRounds, numAdds_append, ih]
    rfl

theorem runCalls_append (as bs : List Call) (s : GroceryStore) :
    runCalls s (as ++ bs) = runCalls (runCalls s as) bs := by
  induction as generalizing s with
  | nil => rfl
  | cons a as ih => exact ih _

theorem runCalls_add_delete (v1 : GroceryItem) (L : Int) (hne : wrapInt64 (L + 1) ≠ 1) :
    runCalls { items := [(1, v1)], lastID := L }
        [Call.add 0 milkCreate, Call.delete (wrapInt64 (L + 1))] =
      { items := [(1, v1)], lastID := wrapInt64 (L + 1) } := by
  have h1 : ((1 : Int) != wrapInt64 (L + 1)) = true := by
    rw [bne_iff_ne]; exact fun h => hne h.symm
  have hset : ∀ v, mapDelete (mapSet [(1, v1)] (wrapInt64 (L + 1)) v) (wrapInt64 (L + 1))
      = [(1, v1)] := by
    intro v
    simp [mapDelete, mapSet, List.filter, h1]
  have hget : ∀ v, mapGet (mapSet [(1, v1)] (wrapInt64 (L + 1)) v) (wrapInt64 (L + 1))
      = some v := by
    intro v; rw [mapGet_mapSet, if_pos rfl]
  show (DeleteItem (AddItem _ 0 milkCreate).1 (wrapInt64 (L + 1))).1 = _
  unfold DeleteItem AddItem
  simp only [hget, hset]

/-- The store after one `AddItem` and `n` rounds of adding and deleting: it holds the first
item alone, and the counter is `n + 1` wrapped into `int64`. -/
theorem runCalls_addDeleteRounds (n : Nat) (hn : n + 1 < 2 ^ 64) :
    runCalls Store (Call.add 0 milkCreate :: addDeleteRounds n) =
      { items := [(1, firstMilk)]
        lastID := wrapInt64 (n + 1) } := by
  induction n with
  | zero => rfl
  | succ n ih =>
    have hne : wrapInt64 (wrapInt64 ((n : Int) + 1) + 1) ≠ 1 := by
      have h2 : (n : Int) + 2 < 2 ^ 64 := by
        have : n + 2 < 2 ^ 64 := by omega
        exact_mod_cast this
      rw [wrapInt64_wrap_add]
      unfold wrapInt64; omega
    have hk : wrapInt64 ((n : Int) + 2) = wrapInt64 (wrapInt64 ((n : Int) + 1) + 1) := by
      have h3 : (n : Int) + 2 = (n : Int) + 1 + 1 := by ring
      rw [wrapInt64_wrap_add, h3]
    have hcast : (((n + 1 : Nat) : Int) + 1) = (n : Int) + 1 + 1 := by push_cast; ring
    rw [addDeleteRounds, ← List.cons_append, runCalls_append, ih (by omega), hk,
      runCalls_add_delete _ _ hne, wrapInt64_wrap_add, hcast]

/-- C1 (as amended): in every sequence of `AddItem`, `GetItemByID`, `UpdateItem`,
`DeleteItem` and `ListItems` calls from the empty store that holds fewer than `2^63`
`AddItem` calls, the `k`-th `AddItem` call returns the id `k`, whatever calls lie in
between; the returned ids are therefore strictly increasing and no id is returned twice. -/
theorem C1_AddItem_returns_successive_ids (cs : List Call) (h : numAdds cs < 2 ^ 63) :
    returnedIds Store cs = (List.range (numAdds cs)).map (fun k : Nat => (k : Int) + 1) ∧
    (∀ k : Nat, k < numAdds cs → (returnedIds Store cs)[k]? = some ((k : Int) + 1)) ∧
    (returnedIds Store cs).Pairwise (fun a b => a < b) ∧
    (returnedIds Store cs).Nodup := by
  have heq : returnedIds Store cs =
      (List.range (numAdds cs)).map (fun k : Nat => (k : Int) + 1) := by
    rw [returnedIds_eq _ _ Store_lastID_wrap]
    apply List.map_congr_left
    intro i hi
    have hi2 : i < numAdds cs := List.mem_range.1 hi
    have hi3 : (i : Int) < 2 ^ 63 := by
      have : i < 2 ^ 63 := lt_trans hi2 h
      exact_mod_cast this
    simp only [Store, zero_add]
    rw [wrapInt64_of_inRange _ (by omega) (by omega)]; ring
  have hpw : (returnedIds Store cs).Pairwise (fun a b => a < b) := by
    rw [heq, List.pairwise_map]
    refine (List.pairwise_lt_range (numAdds cs)).imp ?_
    intro a b hab
    have : (a : Int) < b := by exact_mod_cast hab
    omega
  refine ⟨heq, ?_, hpw, ?_⟩
  · intro k hk
    rw [heq, List.getElem?_map, List.getElem?_range hk]
    rfl
  · exact hpw.imp (fun hab => ne_of_lt hab)

/-- C1 (counterexample to the unbounded statement): take one `AddItem` followed by
`2^63 - 1` rounds of an `AddItem` and the `DeleteItem` of the item just added. The
`AddItem` call number `2^63 - 1` returns `2^63 - 1`, and the `AddItem` call number `2^63`
returns `-2^63`: it is not `2^63`, and the returned ids are not increasing. -/
theorem C1_counterexample_int64_wraps :
    numAdds (Call.add 0 milkCreate :: addDeleteRounds (2 ^ 63 - 1)) = 2 ^ 63 ∧
    (returnedIds Store (Call.add 0 milkCreate :: addDeleteRounds (2 ^ 63 - 1)))[2 ^ 63 - 2]? =
      some (2 ^ 63 - 1) ∧
    (returnedIds Store (Call.add 0 milkCreate :: addDeleteRounds (2 ^ 63 - 1)))[2 ^ 63 - 1]? =
      some (-2 ^ 63) := by
  have hn : numAdds (Call.add 0 milkCreate :: addDeleteRounds (2 ^ 63 - 1)) = 2 ^ 63 := by
    rw [numAdds_cons, numAdds_addDeleteRounds]; rfl
  refine ⟨hn, ?_, ?_⟩
  · rw [returnedIds_eq _ _ Store_lastID_wrap, hn, List.getElem?_map,
      List.getElem?_range (by norm_num)]
    simp only [Store, Option.map_some', zero_add]
    unfold wrapInt64; norm_num
  · rw [returnedIds_eq _ _ Store_lastID_wrap, hn, List.getElem?_map,
      List.getElem?_range (by norm_num)]
    simp only [Store, Option.map_some', zero_add]
    unfold wrapInt64; norm_num

/-! ## Invariants of the reachable stores -/

theorem mem_mapSet (m : List (Int × GroceryItem)) (k : Int) (v : GroceryItem)
    (e : Int × GroceryItem) (h : e ∈ mapSet m k v) : e = (k, v) ∨ e ∈ m := by
  unfold mapSet at h
  rcases List.mem_cons.1 h with h | h
  · exact Or.inl h
  · exact Or.inr (List.mem_filter.1 h).1

theorem mem_mapDelete (m : List (Int × GroceryItem)) (k : Int) (e : Int × GroceryItem)
    (h : e ∈ mapDelete m k) : e ∈ m :=
  (List.mem_filter.1 h).1

theorem mem_mapModify (m : List (Int × GroceryItem)) (k : Int) (v : GroceryItem)
    (e : Int × GroceryItem) (h : e ∈ mapModify m k v) : e ∈ m ∨ (e = (k, v) ∧ k ∈ mapKeys m) := by
  unfold mapModify at h
  obtain ⟨e0, he0, rfl⟩ := List.mem_map.1 h
  by_cases hk : e0.1 = k
  · right
    have : (e0.1 == k) = true := by simp [hk]
    simp only [this, if_true]
    refine ⟨by rw [hk], ?_⟩
    rw [← hk]; exact List.mem_map.2 ⟨e0, he0, rfl⟩
  · left
    have : (e0.1 == k) = false := by simp [hk]
    simpa [this] using he0

theorem KeyInv_exec (s : GroceryStore) (c : Call) (h : KeyInv s) : KeyInv (c.exec s).1 := by
  cases c with
  | add now item =>
    intro e he
    rcases mem_mapSet _ _ _ _ he with rfl | he
    · exact ⟨rfl, rfl⟩
    · exact h e he
  | get id => exact h
  | update now id upd =>
    simp only [Call.exec, UpdateItem]
    cases hg : mapGet s.items id with
    | none => exact h
    | some item =>
      intro e he
      rcases mem_mapModify _ _ _ _ he with he | ⟨rfl, _⟩
      · exact h e he
      · have := h _ (mem_of_mapGet_eq_some _ _ _ hg)
        exact ⟨this.1, this.2⟩
  | delete id =>
    simp only [Call.exec, DeleteItem]
    cases mapGet s.items id with
    | none => exact h
    | some item => exact fun e he => h e (mem_mapDelete _ _ _ he)
  | list env params => exact h

theorem KeyInv_runCalls (cs : List Call) (s : GroceryStore) (h : KeyInv s) :
    KeyInv (runCalls s cs) := by
  induction cs generalizing s with
  | nil => exact h
  | cons c cs ih => exact ih _ (KeyInv_exec s c h)

theorem BoundInv_exec (s : GroceryStore) (c : Call) (h : BoundInv s)
    (hlt : s.lastID + (if c.isAdd = true then 1 else 0) < 2 ^ 63) :
    BoundInv (c.exec s).1 := by
  cases c with
  | add now item =>
    simp only [Call.isAdd, if_true] at hlt
    have hw : wrapInt64 (s.lastID + 1) = s.lastID + 1 :=
      wrapInt64_of_inRange _ (by have := h.1; omega) hlt
    refine ⟨?_, ?_⟩
    · show 0 ≤ wrapInt64 (s.lastID + 1)
      rw [hw]; have := h.1; omega
    · intro e he
      show 1 ≤ e.2.Id ∧ e.2.Id ≤ wrapInt64 (s.lastID + 1)
      rcases mem_mapSet _ _ _ _ he with rfl | he
      · show 1 ≤ wrapInt64 (s.lastID + 1) ∧ wrapInt64 (s.lastID + 1) ≤ wrapInt64 (s.lastID + 1)
        rw [hw]; have := h.1; omega
      · rw [hw]; have := h.2 e he; omega
  | get id => exact h
  | update now id upd =>
    simp only [Call.exec, UpdateItem]
    cases hg : mapGet s.items id with
    | none => exact h
    | some item =>
      refine ⟨h.1, ?_⟩
      intro e he
      rcases mem_mapModify _ _ _ _ he with he | ⟨rfl, _⟩
      · exact h.2 e he
      · exact h.2 (id, item) (mem_of_mapGet_eq_some _ _ item hg)
  | delete id =>
    simp only [Call.exec, DeleteItem]
    cases mapGet s.items id with
    | none => exact h
    | some item => exact ⟨h.1, fun e he => h.2 e (mem_mapDelete _ _ _ he)⟩
  | list env params => exact h

theorem BoundInv_runCalls (cs : List Call) (s : GroceryStore) (h : BoundInv s)
    (hlt : s.lastID + numAdds cs < 2 ^ 63) : BoundInv (runCalls s cs) := by
  induction cs generalizing s with
  | nil => exact h
  | cons c cs ih =>
    rw [numAdds_cons] at hlt
    push_cast at hlt
    have hstep : s.lastID + (if c.isAdd = true then 1 else 0) < 2 ^ 63 := by
      split_ifs at hlt ⊢ <;> omega
    have hb := BoundInv_exec s c h hstep
    refine ih _ hb ?_
    rw [exec_lastID]
    by_cases hc : c.isAdd = true
    · simp only [hc, if_true] at hlt hstep ⊢
      rw [wrapInt64_of_inRange _ (by have := h.1; omega) hstep]; omega
    · simp only [hc] at hlt ⊢
      simpa using hlt

theorem mapKeys_mapDelete_sublist (m : List (Int × GroceryItem)) (k : Int) :
    (mapKeys (mapDelete m k)).Sublist (mapKeys m) :=
  (List.filter_sublist m).map Prod.fst

theorem not_mem_mapKeys_mapDelete (m : List (Int × GroceryItem)) (k : Int) :
    k ∉ mapKeys (mapDelete m k) := by
  intro h
  obtain ⟨e, he, hk⟩ := List.mem_map.1 h
  have := (List.mem_filter.1 he).2
  rw [hk] at this
  simp at this

theorem KeysNodup_exec (s : GroceryStore) (c : Call) (h : KeysNodup s) :
    KeysNodup (c.exec s).1 := by
  cases c with
  | add now item =>
    show (mapKeys ((_, _) :: mapDelete s.items _)).Nodup
    exact List.nodup_cons.2
      ⟨not_mem_mapKeys_mapDelete _ _, h.sublist (mapKeys_mapDelete_sublist _ _)⟩
  | get id => exact h
  | update now id upd =>
    simp only [Call.exec, UpdateItem]
    cases mapGet s.items id with
    | none => exact h
    | some item =>
      show (mapKeys (mapModify s.items id _)).Nodup
      rw [mapKeys_mapModify]; exact h
  | delete id =>
    simp only [Call.exec, DeleteItem]
    cases mapGet s.items id with
    | none => exact h
    | some item => exact h.sublist (mapKeys_mapDelete_sublist _ _)
  | list env params => exact h

theorem KeysNodup_runCalls (cs : List Call) (s : GroceryStore) (h : KeysNodup s) :
    KeysNodup (runCalls s cs) := by
  induction cs generalizing s with
  | nil => exact h
  | cons c cs ih => exact ih _ (KeysNodup_exec s c h)

/-- In every store reached from the empty store no key occurs twice and no two entries
hold equal items. -/
theorem reachable_nodup (cs : List Call) :
    (mapKeys (runCalls Store cs).items).Nodup ∧ (mapValues (runCalls Store cs).items).Nodup := by
  have hk : KeysNodup (runCalls Store cs) :=
    KeysNodup_runCalls cs Store (by unfold KeysNodup mapKeys Store; exact List.nodup_nil)
  have hinv : KeyInv (runCalls Store cs) :=
    KeyInv_runCalls cs Store (by intro e he; simp [Store] at he)
  refine ⟨hk, ?_⟩
  have heq : mapKeys (runCalls Store cs).items =
      (mapValues (runCalls Store cs).items).map (fun it => it.Id) := by
    unfold mapKeys mapValues
    rw [List.map_map]
    apply List.map_congr_left
    intro e he
    exact (hinv e he).2
  unfold KeysNodup at hk
  rw [heq] at hk
  exact hk.of_map _

/-! ## Insertion sort meets the contract assumed of `sort.Slice` -/

theorem siftLeft_perm (less : GroceryItem → GroceryItem → Bool) (x : GroceryItem)
    (l : List GroceryItem) : (siftLeft less x l).Perm (x :: l) := by
  induction l with
  | nil => exact List.Perm.refl _
  | cons p ps ih =>
    unfold siftLeft
    split_ifs
    · exact ((List.Perm.cons p ih).trans (List.Perm.swap x p ps))
    · exact List.Perm.refl _

theorem foldl_siftLeft_perm (less : GroceryItem → GroceryItem → Bool)
    (data acc : List GroceryItem) :
    (data.foldl (fun acc x => siftLeft less x acc) acc).Perm (data.reverse ++ acc) := by
  induction data generalizing acc with
  | nil => exact List.Perm.refl _
  | cons x xs ih =>
    rw [List.foldl_cons, List.reverse_cons, List.append_assoc]
    refine (ih _).trans ?_
    exact List.Perm.append_left _ (siftLeft_perm less x acc)

theorem insertionSort_perm (less : GroceryItem → GroceryItem → Bool)
    (data : List GroceryItem) : (insertionSort less data).Perm data := by
  unfold insertionSort
  refine (List.reverse_perm _).trans ?_
  refine (foldl_siftLeft_perm less data []).trans ?_
  rw [List.append_nil]
  exact List.reverse_perm _

theorem siftLeft_head (less : GroceryItem → GroceryItem → Bool) (x : GroceryItem)
    (l : List GroceryItem) :
    (siftLeft less x l).head? = some x ∨
      ((siftLeft less x l).head? = l.head? ∧ ∀ p ∈ l.head?, less x p = true) := by
  cases l with
  | nil => left; rfl
  | cons p ps =>
    unfold siftLeft
    by_cases h : less x p = true
    · right; simp [h]
    · left; simp [h]

theorem siftLeft_chain (less : GroceryItem → GroceryItem → Bool) (x : GroceryItem)
    (l : List GroceryItem)
    (h : List.Chain' (fun a b => less a b = true → less b a = true) l) :
    List.Chain' (fun a b => less a b = true → less b a = true) (siftLeft less x l) := by
  induction l with
  | nil => simp [siftLeft]
  | cons p ps ih =>
    unfold siftLeft
    by_cases hx : less x p = true
    · rw [if_pos hx]
      refine (ih h.tail).cons' ?_
      intro y hy
      rcases siftLeft_head less x ps with hh | ⟨hh, _⟩
      · rw [hh] at hy
        cases hy
        exact fun _ => hx
      · rw [hh] at hy
        exact (List.chain'_cons'.1 h).1 y hy
    · rw [if_neg hx]
      refine h.cons' ?_
      intro y hy
      cases hy
      exact fun hxp => absurd hxp hx

theorem foldl_siftLeft_chain (less : GroceryItem → GroceryItem → Bool)
    (data acc : List GroceryItem)
    (h : List.Chain' (fun a b => less a b = true → less b a = true) acc) :
    List.Chain' (fun a b => less a b = true → less b a = true)
      (data.foldl (fun acc x => siftLeft less x acc) acc) := by
  induction data generalizing acc with
  | nil => exact h
  | cons x xs ih => exact ih _ (siftLeft_chain less x acc h)

theorem insertionSort_ordered (less : GroceryItem → GroceryItem → Bool)
    (data : List GroceryItem) :
    List.Chain' (fun x y => less y x = true → less x y = true) (insertionSort less data) := by
  unfold insertionSort
  rw [List.chain'_reverse]
  exact foldl_siftLeft_chain less data [] List.chain'_nil

theorem refEnv_lawful : refEnv.Lawful :=
  { mapRange_perm := fun _ => List.Perm.refl _
    sortSlice_perm := insertionSort_perm
    sortSlice_ordered := fun less data _ _ => insertionSort_ordered less data }

theorem revEnv_lawful : revEnv.Lawful :=
  { mapRange_perm := fun _ => List.reverse_perm _
    sortSlice_perm := insertionSort_perm
    sortSlice_ordered := fun less data _ _ => insertionSort_ordered less data }

/-! ## `ListItems` -/

theorem keepItem_iff (env : GoEnv) (params : ListItemsParams) (item : GroceryItem) :
    keepItem env params item = true ↔ matchesFilter env params item := by
  unfold keepItem matchesFilter skipByName skipByCategory skipByPurchased stringsContains
  cases params.Name <;> cases params.Category <;> cases params.Purchased <;> simp

theorem ListItems_perm (env : GoEnv) (henv : env.Lawful) (s : GroceryStore)
    (params : ListItemsParams) :
    (ListItems env s params).Perm ((mapValues s.items).filter (keepItem env params)) := by
  have h1 : (((env.mapRange s.items).map Prod.snd).filter (keepItem env params)).Perm
      ((mapValues s.items).filter (keepItem env params)) :=
    ((henv.mapRange_perm s.items).map Prod.snd).filter _
  unfold ListItems
  by_cases hs : params.SortBy = ""
  · simpa [hs] using h1
  · simp only [ne_eq, hs, not_false_eq_true, if_true]
    exact (henv.sortSlice_perm _ _).trans h1

theorem mem_ListItems_iff (env : GoEnv) (henv : env.Lawful) (s : GroceryStore)
    (params : ListItemsParams) (it : GroceryItem) :
    it ∈ ListItems env s params ↔ it ∈ mapValues s.items ∧ matchesFilter env params it := by
  rw [(ListItems_perm env henv s params).mem_iff, List.mem_filter, keepItem_iff]

/-- C2: for every store and parameters, under the contract of the Go runtime, `ListItems`
returns each item that passes every provided filter exactly as many times as it is stored
(once, when the stored items are distinct) and no item that fails one: an item is in the
result if and only if it is stored and passes the filters (name and category by
case-insensitive substring, purchased by equality). Without filter the result is a
permutation of the stored items; with the name filter "milk" alone it holds exactly the stored
items whose lower-cased name contains "milk". -/
theorem C2_ListItems_filters (env : GoEnv) (henv : env.Lawful) (s : GroceryStore)
    (params : ListItemsParams) :
    (∀ it, matchesFilter env params it →
      (ListItems env s params).count it = (mapValues s.items).count it) ∧
    (∀ it, ¬ matchesFilter env params it → (ListItems env s params).count it = 0) ∧
    (∀ it, it ∈ ListItems env s params ↔
      it ∈ mapValues s.items ∧ matchesFilter env params it) ∧
    ((mapValues s.items).Nodup → (ListItems env s params).Nodup) ∧
    (params.Name = none → params.Category = none → params.Purchased = none →
      (ListItems env s params).Perm (mapValues s.items)) ∧
    (params.Name = some "milk" → params.Category = none → params.Purchased = none →
      env.toLower "milk" = "milk" →
      ∀ it, it ∈ ListItems env s params ↔
        it ∈ mapValues s.items ∧ "milk".data <:+: (env.toLower it.Name).data) := by
  have hperm := ListItems_perm env henv s params
  refine ⟨?_, ?_, mem_ListItems_iff env henv s params, ?_, ?_, ?_⟩
  · intro it hit
    rw [hperm.count_eq, List.count_filter ((keepItem_iff env params it).2 hit)]
  · intro it hit
    rw [List.count_eq_zero, mem_ListItems_iff env henv]
    exact fun h => hit h.2
  · intro hnd
    exact hperm.nodup_iff.2 (hnd.filter _)
  · intro h1 h2 h3
    refine hperm.trans ?_
    rw [List.filter_eq_self.2]
    intro it _
    rw [keepItem_iff]
    unfold matchesFilter
    simp [h1, h2, h3]
  · intro h1 h2 h3 hl it
    rw [mem_ListItems_iff env henv]
    unfold matchesFilter
    simp [h1, h2, h3, hl]

/-- C2 (evaluation): in the example store, under the reference environment, the listing
with the name filter "milk" holds the items 1 ("Milk") and 3 ("Soy MILK"), and these are the
stored items whose lower-cased name contains "milk"; under the environment that iterates in
reverse, the listing without filter is 3, 2, 1, a permutation of the stored items. -/
theorem C2_witness :
    (ListItems refEnv exampleStore { noParams with Name := some "milk" }).map (fun it => it.Id)
      = [1, 3] ∧
    (∀ it, it ∈ ListItems refEnv exampleStore { noParams with Name := some "milk" } ↔
      it ∈ mapValues exampleStore.items ∧
        matchesFilter refEnv { noParams with Name := some "milk" } it) ∧
    (∀ it, it ∈ ListItems refEnv exampleStore { noParams with Name := some "milk" } ↔
      it ∈ mapValues exampleStore.items ∧ "milk".data <:+: (asciiLower it.Name).data) ∧
    (ListItems refEnv exampleStore { noParams with Name := some "milk" }).Nodup ∧
    (ListItems revEnv exampleStore noParams).map (fun it => it.Id) = [3, 2, 1] ∧
    (ListItems revEnv exampleStore noParams).Perm (mapValues exampleStore.items) :=
  ⟨by decide,
   (C2_ListItems_filters refEnv refEnv_lawful exampleStore
      { noParams with Name := some "milk" }).2.2.1,
   (C2_ListItems_filters refEnv refEnv_lawful exampleStore
      { noParams with Name := some "milk" }).2.2.2.2.2 rfl rfl rfl (by decide),
   (C2_ListItems_filters refEnv refEnv_lawful exampleStore
      { noParams with Name := some "milk" }).2.2.2.1 (by decide),
   by decide,
   (C2_ListItems_filters revEnv revEnv_lawful exampleStore noParams).2.2.2.2.1 rfl rfl rfl⟩

theorem sortLess_createdAt_desc (params : ListItemsParams)
    (hby : params.SortBy = "createdAt") (hdesc : params.SortDesc = true)
    (a b : GroceryItem) : sortLess params a b = decide (b.CreatedAt ≤ a.CreatedAt) := by
  unfold sortLess comparator Time.Before
  simp only [hby, hdesc, if_true]
  by_cases h : a.CreatedAt < b.CreatedAt
  · simp [h]
  · simp [h, not_lt.1 h]

/-- C3: for every store and filter, under the contract of the Go runtime, `ListItems` with
`SortBy = "createdAt"` and `SortDesc = true` returns the matching items newest first: of two
neighbours in the result the earlier one was not created before the later one, and the same
holds of any two items of the result, so an item created later precedes one created
earlier. -/
theorem C3_ListItems_createdAt_desc (env : GoEnv) (henv : env.Lawful) (s : GroceryStore)
    (params : ListItemsParams) (hby : params.SortBy = "createdAt")
    (hdesc : params.SortDesc = true) :
    (∀ it, it ∈ ListItems env s params ↔
      it ∈ mapValues s.items ∧ matchesFilter env params it) ∧
    List.Chain' (fun a b => ¬ a.CreatedAt < b.CreatedAt) (ListItems env s params) ∧
    List.Pairwise (fun a b => b.CreatedAt ≤ a.CreatedAt) (ListItems env s params) := by
  have hless := sortLess_createdAt_desc params hby hdesc
  have hne : params.SortBy ≠ "" := by rw [hby]; decide
  have hchain : List.Chain' (fun a b : GroceryItem => b.CreatedAt ≤ a.CreatedAt)
      (ListItems env s params) := by
    unfold ListItems
    simp only [hne, ne_eq, not_false_eq_true, if_true]
    refine (henv.sortSlice_ordered (sortLess params) _ ?_ ?_).imp ?_
    · intro a b c hab hbc
      rw [hless] at hab hbc ⊢
      simp only [decide_eq_true_eq] at hab hbc ⊢
      exact le_trans hbc hab
    · intro a b c hab hbc
      rw [hless] at hab hbc ⊢
      simp only [decide_eq_false_iff_not, not_le] at hab hbc ⊢
      exact lt_trans hab hbc
    · intro a b hab
      rw [hless, hless] at hab
      simp only [decide_eq_true_eq] at hab
      rcases le_total b.CreatedAt a.CreatedAt with h | h
      · exact h
      · exact hab h
  refine ⟨mem_ListItems_iff env henv s params, hchain.imp (fun a b h => not_lt.2 h), ?_⟩
  haveI : IsTrans GroceryItem (fun a b => b.CreatedAt ≤ a.CreatedAt) :=
    ⟨fun a b c h1 h2 => le_trans h2 h1⟩
  exact List.chain'_iff_pairwise.1 hchain

/-- C3 (evaluation): in the example store, under the reference environment, the listing
sorted by `createdAt` descending is 3, 2, 1. -/
theorem C3_witness :
    (ListItems refEnv exampleStore
      { noParams with SortBy := "createdAt", SortDesc := true }).map (fun it => it.Id)
      = [3, 2, 1] ∧
    List.Chain' (fun a b => ¬ a.CreatedAt < b.CreatedAt)
      (ListItems refEnv exampleStore
        { noParams with SortBy := "createdAt", SortDesc := true }) :=
  ⟨by decide,
   (C3_ListItems_createdAt_desc refEnv refEnv_lawful exampleStore
      { noParams with SortBy := "createdAt", SortDesc := true } rfl rfl).2.1⟩

/-! ## Reachable stores -/

theorem KeyInv_Store : KeyInv Store := by
  intro e he; simp [Store] at he

theorem BoundInv_Store : BoundInv Store := by
  refine ⟨le_refl _, ?_⟩
  intro e he; simp [Store] at he

theorem filter_keepItem_purchased_true (env : GoEnv) (params : ListItemsParams)
    (l : List GroceryItem) (hl : ∀ it ∈ l, it.Purchased = false)
    (hp : params.Purchased = some true) : l.filter (keepItem env params) = [] := by
  rw [List.filter_eq_nil_iff]
  intro it hit
  rw [keepItem_iff]
  intro hm
  have := hm.2.2 true hp
  rw [hl it hit] at this
  cases this

theorem filter_keepItem_purchased_false (env : GoEnv) (params : ListItemsParams)
    (l : List GroceryItem) (hl : ∀ it ∈ l, it.Purchased = false) :
    l.filter (keepItem env { params with Purchased := some false }) =
      l.filter (keepItem env { params with Purchased := none }) := by
  apply List.filter_congr
  intro it hit
  have hpf := hl it hit
  unfold keepItem skipByName skipByCategory skipByPurchased
  simp [hpf]

theorem visited_unpurchased (env : GoEnv) (henv : env.Lawful) (s : GroceryStore)
    (h : KeyInv s) : ∀ it ∈ (env.mapRange s.items).map Prod.snd, it.Purchased = false := by
  intro it hit
  obtain ⟨e, he, rfl⟩ := List.mem_map.1 hit
  exact (h e ((henv.mapRange_perm s.items).mem_iff.1 he)).1

/-- C10 (as amended): in every store reached from the empty store by a sequence of calls,
every stored item has `Purchased = false` and is stored under the key equal to its id, and,
as long as the sequence holds fewer than `2^63` `AddItem` calls, that id lies between 1 and
`lastID`. Consequently, under the contract of the Go runtime, `ListItems` with the
purchased filter set to true returns the empty list, and with the filter set to false it
returns what it returns without purchased filter. -/
theorem C10_reachable_store_invariant (cs : List Call) :
    (∀ e ∈ (runCalls Store cs).items, e.2.Purchased = false ∧ e.1 = e.2.Id) ∧
    (numAdds cs < 2 ^ 63 →
      ∀ e ∈ (runCalls Store cs).items, 1 ≤ e.2.Id ∧ e.2.Id ≤ (runCalls Store cs).lastID) ∧
    (∀ (env : GoEnv) (params : ListItemsParams), env.Lawful →
      params.Purchased = some true → ListItems env (runCalls Store cs) params = []) ∧
    (∀ (env : GoEnv) (params : ListItemsParams), env.Lawful →
      ListItems env (runCalls Store cs) { params with Purchased := some false } =
        ListItems env (runCalls Store cs) { params with Purchased := none }) := by
  have hkey : KeyInv (runCalls Store cs) := KeyInv_runCalls cs Store KeyInv_Store
  refine ⟨hkey, ?_, ?_, ?_⟩
  · intro hn
    have hlt : Store.lastID + (numAdds cs : Int) < 2 ^ 63 := by
      have : ((numAdds cs : Nat) : Int) < 2 ^ 63 := by exact_mod_cast hn
      simpa [Store] using this
    exact (BoundInv_runCalls cs Store BoundInv_Store hlt).2
  · intro env params henv hp
    have hnil := filter_keepItem_purchased_true env params _
      (visited_unpurchased env henv _ hkey) hp
    unfold ListItems
    simp only [hnil]
    split_ifs
    · exact (henv.sortSlice_perm _ []).eq_nil
    · rfl
  · intro env params henv
    have heq := filter_keepItem_purchased_false env params _
      (visited_unpurchased env henv _ hkey)
    unfold ListItems
    simp only [heq]
    rfl

/-- C10 (evaluation): after adding two items to the empty store, updating the first and
deleting the second, the bound on the ids holds and the listing of purchased items is
empty. -/
theorem C10_witness :
    numAdds [Call.add 100 milkCreate, Call.add 200 milkCreate,
      Call.update 300 1 milkCreate, Call.delete 2] < 2 ^ 63 ∧
    (∀ e ∈ (runCalls Store [Call.add 100 milkCreate, Call.add 200 milkCreate,
        Call.update 300 1 milkCreate, Call.delete 2]).items,
      1 ≤ e.2.Id ∧ e.2.Id ≤ (runCalls Store [Call.add 100 milkCreate, Call.add 200 milkCreate,
        Call.update 300 1 milkCreate, Call.delete 2]).lastID) ∧
    ListItems refEnv (runCalls Store [Call.add 100 milkCreate, Call.add 200 milkCreate,
        Call.update 300 1 milkCreate, Call.delete 2])
      { noParams with Purchased := some true } = [] :=
  ⟨by decide,
   (C10_reachable_store_invariant _).2.1 (by decide),
   (C10_reachable_store_invariant _).2.2.1 refEnv _ refEnv_lawful rfl⟩

/-- C10 (counterexample to the unbounded statement): after one `AddItem` followed by
`2^63 - 1` rounds of an `AddItem` and the `DeleteItem` of the item just added, the store
holds the item with id 1 alone and the counter `lastID` is `-2^63`: the id of the stored
item is not between 1 and `lastID`. -/
theorem C10_counterexample_int64_wraps :
    runCalls Store (Call.add 0 milkCreate :: addDeleteRounds (2 ^ 63 - 1)) =
      { items := [(1, firstMilk)]
        lastID := -2 ^ 63 } ∧
    ¬ ∀ e ∈ (runCalls Store (Call.add 0 milkCreate :: addDeleteRounds (2 ^ 63 - 1))).items,
      1 ≤ e.2.Id ∧
        e.2.Id ≤ (runCalls Store (Call.add 0 milkCreate :: addDeleteRounds (2 ^ 63 - 1))).lastID := by
  have hrun := runCalls_addDeleteRounds (2 ^ 63 - 1) (by norm_num)
  have hw : wrapInt64 (((2 ^ 63 - 1 : Nat) : Int) + 1) = -2 ^ 63 := by
    unfold wrapInt64; norm_num
  rw [hw] at hrun
  refine ⟨hrun, ?_⟩
  rw [hrun]
  intro h
  have hle : firstMilk.Id ≤ -2 ^ 63 := (h _ (List.mem_singleton.2 rfl)).2
  have hid : firstMilk.Id = 1 := rfl
  rw [hid] at hle
  norm_num at hle

/-! ## Evaluations on the example store -/

/-- C1 (evaluation): adding, deleting the first item and adding twice more returns the ids
1, 2 and 3; the id 1 of the deleted item is not returned again. -/
theorem C1_witness :
    numAdds [Call.add 100 milkCreate, Call.delete 1, Call.add 200 milkCreate,
      Call.list refEnv noParams, Call.add 300 milkCreate] < 2 ^ 63 ∧
    returnedIds Store [Call.add 100 milkCreate, Call.delete 1, Call.add 200 milkCreate,
      Call.list refEnv noParams, Call.add 300 milkCreate] = [1, 2, 3] ∧
    (returnedIds Store [Call.add 100 milkCreate, Call.delete 1, Call.add 200 milkCreate,
      Call.list refEnv noParams, Call.add 300 milkCreate]).Pairwise (fun a b => a < b) :=
  ⟨by decide,
   (C1_AddItem_returns_successive_ids _ (by decide)).1,
   (C1_AddItem_returns_successive_ids _ (by decide)).2.2.1⟩

/-- C4 (evaluation): deleting the item 2 of the example store. -/
theorem C4_witness :
    2 ∈ mapKeys exampleStore.items ∧
    (DeleteItem exampleStore 2).2 = none ∧
    GetItemByID (DeleteItem exampleStore 2).1 2 = .error (.errorsNew "item not found") ∧
    (DeleteItem (DeleteItem exampleStore 2).1 2).2 = some (.errorsNew "item not found") ∧
    ∀ j, j ≠ 2 → GetItemByID (DeleteItem exampleStore 2).1 j = GetItemByID exampleStore j :=
  ⟨by decide, C4_delete_then_get_not_found exampleStore 2 (by decide)⟩

/-- C5 (evaluation): the id 7 is not a key of the example store, the id 3 is. -/
theorem C5_witness :
    (GetItemByID exampleStore 7 = .error (.errorsNew "item not found") ∧
      UpdateItem exampleStore 400 7 milkCreate =
        (exampleStore, .error (.errorsNew "item not found")) ∧
      DeleteItem exampleStore 7 = (exampleStore, some (.errorsNew "item not found"))) ∧
    ((∃ item, GetItemByID exampleStore 3 = .ok item) ∧
      (∃ item, (UpdateItem exampleStore 400 3 milkCreate).2 = .ok item) ∧
      (DeleteItem exampleStore 3).2 = none) :=
  ⟨(C5_not_found_iff_absent exampleStore 7 400 milkCreate).1 (by decide),
   (C5_not_found_iff_absent exampleStore 3 400 milkCreate).2 (by decide)⟩

/-- C9 (evaluation): updating the item 2 of the example store at instant 400. -/
theorem C9_witness :
    2 ∈ mapKeys exampleStore.items ∧
    ∃ old new,
      mapGet exampleStore.items 2 = some old ∧
      (UpdateItem exampleStore 400 2 milkCreate).2 = .ok new ∧
      mapGet (UpdateItem exampleStore 400 2 milkCreate).1.items 2 = some new ∧
      new.Name = milkCreate.Name ∧ new.Quantity = milkCreate.Quantity ∧
      new.Unit = milkCreate.Unit ∧ new.Category = milkCreate.Category ∧
      new.Notes = milkCreate.Notes ∧ new.UpdatedAt = 400 ∧
      new.Id = old.Id ∧ new.CreatedAt = old.CreatedAt ∧ new.Purchased = old.Purchased ∧
      (∀ j, j ≠ 2 →
        mapGet (UpdateItem exampleStore 400 2 milkCreate).1.items j =
          mapGet exampleStore.items j) ∧
      mapKeys (UpdateItem exampleStore 400 2 milkCreate).1.items = mapKeys exampleStore.items ∧
      (UpdateItem exampleStore 400 2 milkCreate).1.lastID = exampleStore.lastID :=
  ⟨by decide, C9_update_frame exampleStore 2 400 milkCreate (by decide)⟩

/-! ## Registration and login -/

theorem Validate_eq_none_iff (r : UserRegister) :
    r.Validate = none ↔
      r.Username ≠ "" ∧ r.Password ≠ "" ∧ r.RepeatedPassword ≠ "" ∧
        r.Password = r.RepeatedPassword := by
  unfold UserRegister.Validate
  by_cases h1 : r.Username = ""
  · simp [h1]
  · by_cases h2 : r.Password = ""
    · simp [h1, h2]
    · by_cases h3 : r.RepeatedPassword = ""
      · simp [h1, h2, h3]
      · by_cases h4 : r.Password = r.RepeatedPassword
        · simp [h1, h2, h3, h4]
        · simp [h1, h2, h3, h4]

/-- C6: for every registration payload, `UserRegister.Validate` returns an error if and only
if the username is empty, the password is empty, the repeated password is empty or the
password differs from the repeated password; and whenever it returns an error,
`RegisterUser` returns that error and no user, with the identity store in the state it was
in, whatever the storage and hashing functions are: no lookup and no insert is made. -/
theorem C6_register_validation (r : UserRegister) :
    (r.Validate ≠ none ↔
      r.Username = "" ∨ r.Password = "" ∨ r.RepeatedPassword = "" ∨
        r.Password ≠ r.RepeatedPassword) ∧
    (∀ (σ : Type) (db : DBOps σ) (bc : Bcrypt) (st : σ) (err : GoError),
      r.Validate = some err → RegisterUser db bc st r = (st, .error err)) := by
  constructor
  · rw [Ne, Validate_eq_none_iff]
    constructor
    · intro h
      by_contra hcon
      push_neg at hcon
      exact h ⟨hcon.1, hcon.2.1, hcon.2.2.1, hcon.2.2.2⟩
    · rintro (h | h | h | h) ⟨h1, h2, h3, h4⟩
      · exact h1 h
      · exact h2 h
      · exact h3 h
      · exact h h4
  · intro σ db bc st err herr
    unfold RegisterUser
    rw [herr]

/-- C6 (evaluation): a registration with an empty username on the in-memory identity store
returns "username is required" and leaves the store without record and without served
call. -/
theorem C6_witness :
    UserRegister.Validate { Username := "", Password := "pw", RepeatedPassword := "pw" } =
      some (.errorsNew "username is required") ∧
    RegisterUser memDB tagBcrypt { users := [], calls := 0 }
        { Username := "", Password := "pw", RepeatedPassword := "pw" } =
      ({ users := [], calls := 0 }, .error (.errorsNew "username is required")) :=
  ⟨by decide,
   (C6_register_validation
      { Username := "", Password := "pw", RepeatedPassword := "pw" }).2
      MemDB memDB tagBcrypt { users := [], calls := 0 } _ (by decide)⟩

/-- C7 (counterexample): for a login with an empty username (and for one with an empty
password) `LoginUser` does not return the generic error "invalid username or password"
but the error of the validation. -/
theorem C7_counterexample_empty_username :
    (LoginUser memDB tagBcrypt { users := [], calls := 0 }
        { Username := "", Password := "secret" }).2 =
      .error (.errorsNew "username is required") ∧
    (LoginUser memDB tagBcrypt { users := [], calls := 0 }
        { Username := "ann", Password := "" }).2 =
      .error (.errorsNew "password is required") ∧
    (LoginUser memDB tagBcrypt { users := [], calls := 0 }
        { Username := "ann", Password := "secret" }).2 =
      .error (.errorsNew "invalid username or password") ∧
    GoError.errorsNew "username is required" ≠ .errorsNew "invalid username or password" ∧
    GoError.errorsNew "password is required" ≠ .errorsNew "invalid username or password" := by
  refine ⟨rfl, rfl, rfl, by decide, by decide⟩

/-- C7 (as amended): for a login with a non-empty username and a non-empty password,
`LoginUser` returns the same error "invalid username or password" when no user has the
username and when the password does not match the stored hash; for an empty username,
whatever the password (empty or not), it returns "username is required", and for an empty
password with a non-empty username it returns "password is required". The handler
`AuthAPI.Login` answers every failure of `LoginUser` with the same response: status 401,
"Authentication failed", "Invalid username or password". -/
theorem C7_login_errors (σ : Type) (db : DBOps σ) (bc : Bcrypt) (st : σ) (l : UserLogin) :
    (l.Username = "" →
      LoginUser db bc st l = (st, .error (.errorsNew "username is required"))) ∧
    (l.Username ≠ "" → l.Password = "" →
      LoginUser db bc st l = (st, .error (.errorsNew "password is required"))) ∧
    (l.Username ≠ "" → l.Password ≠ "" →
      (db.First st l.Username).2 = .error .ErrRecordNotFound →
      (LoginUser db bc st l).2 = .error (.errorsNew "invalid username or password")) ∧
    (l.Username ≠ "" → l.Password ≠ "" →
      ∀ user, (db.First st l.Username).2 = .ok user →
      bc.CompareHashAndPassword user.Password l.Password ≠ none →
      (LoginUser db bc st l).2 = .error (.errorsNew "invalid username or password")) ∧
    (∀ (mac : MAC) (key : String) (now1 now2 now3 : Time) (err : GoError),
      (LoginUser db bc st l).2 = .error err →
      (AuthAPI.Login db bc mac key st (.ok l) now1 now2 now3).2 =
        .error 401
          { Message := "Authentication failed", Details := "Invalid username or password" })
    := by
  refine ⟨?_, ?_, ?_, ?_, ?_⟩
  · intro h
    simp [LoginUser, UserLogin.Validate, h]
  · intro h1 h2
    simp [LoginUser, UserLogin.Validate, h1, h2]
  · intro h1 h2 hf
    have hv : l.Validate = none := by simp [UserLogin.Validate, h1, h2]
    unfold LoginUser
    rw [hv]
    rcases hdb : db.First st l.Username with ⟨st1, r⟩
    rw [hdb] at hf
    simp only at hf
    subst hf
    simp
  · intro h1 h2 user hf hcmp
    have hv : l.Validate = none := by simp [UserLogin.Validate, h1, h2]
    unfold LoginUser
    rw [hv]
    rcases hdb : db.First st l.Username with ⟨st1, r⟩
    rw [hdb] at hf
    simp only at hf
    subst hf
    cases hc : bc.CompareHashAndPassword user.Password l.Password with
    | none => exact absurd hc hcmp
    | some e => simp [hc]
  · intro mac key now1 now2 now3 err herr
    rcases hl : LoginUser db bc st l with ⟨st1, r⟩
    rw [hl] at herr
    simp only at herr
    subst herr
    unfold AuthAPI.Login
    simp only [hl]

/-- C7 (evaluation): on the in-memory identity store holding the user "ann", a login with
an unknown username and a login with a wrong password get the same error; a login with an
empty username gets "username is required", also when the password is empty too; a login
with an empty password and the username "ann" gets "password is required"; and the handler
answers the login with an empty username with the generic response. -/
theorem C7_witness :
    (LoginUser memDB tagBcrypt { users := [ann], calls := 0 }
        { Username := "bob", Password := "secret" }).2 =
      .error (.errorsNew "invalid username or password") ∧
    (LoginUser memDB tagBcrypt { users := [ann], calls := 0 }
        { Username := "ann", Password := "guess" }).2 =
      .error (.errorsNew "invalid username or password") ∧
    LoginUser memDB tagBcrypt { users := [ann], calls := 0 }
        { Username := "", Password := "secret" } =
      ({ users := [ann], calls := 0 }, .error (.errorsNew "username is required")) ∧
    LoginUser memDB tagBcrypt { users := [ann], calls := 0 }
        { Username := "", Password := "" } =
      ({ users := [ann], calls := 0 }, .error (.errorsNew "username is required")) ∧
    LoginUser memDB tagBcrypt { users := [ann], calls := 0 }
        { Username := "ann", Password := "" } =
      ({ users := [ann], calls := 0 }, .error (.errorsNew "password is required")) ∧
    (AuthAPI.Login memDB tagBcrypt tagMAC "key" { users := [ann], calls := 0 }
        (.ok { Username := "", Password := "secret" }) 10 10 10).2 =
      .error 401
        { Message := "Authentication failed", Details := "Invalid username or password" } :=
  ⟨(C7_login_errors MemDB memDB tagBcrypt _ { Username := "bob", Password := "secret" }).2.2.1
      (by decide) (by decide) rfl,
   (C7_login_errors MemDB memDB tagBcrypt _ { Username := "ann", Password := "guess" }).2.2.2.1
      (by decide) (by decide) ann rfl (by decide),
   (C7_login_errors MemDB memDB tagBcrypt _ { Username := "", Password := "secret" }).1 rfl,
   (C7_login_errors MemDB memDB tagBcrypt _ { Username := "", Password := "" }).1 rfl,
   (C7_login_errors MemDB memDB tagBcrypt _ { Username := "ann", Password := "" }).2.1
      (by decide) rfl,
   (C7_login_errors MemDB memDB tagBcrypt _ { Username := "", Password := "secret" }).2.2.2.2
      tagMAC "key" 10 10 10 _ rfl⟩

/-! ## Session tokens -/

theorem NewNumericDate_le (t : Time) : NewNumericDate t ≤ t := by
  have h : ∀ x : Int, x - x % 1000000000 ≤ x := by intro x; omega
  exact h t

theorem NewNumericDate_add_day (t : Time) :
    NewNumericDate (t + 24 * Hour) = NewNumericDate t + 24 * Hour := by
  have h : ∀ x : Int, (x + 24 * (3600 * 1000000000)) - (x + 24 * (3600 * 1000000000)) % 1000000000
      = x - x % 1000000000 + 24 * (3600 * 1000000000) := by intro x; omega
  exact h t

theorem NewNumericDate_mono (t u : Time) (h : t ≤ u) : NewNumericDate t ≤ NewNumericDate u := by
  have h0 : ∀ x y : Int, x ≤ y → x - x % 1000000000 ≤ y - y % 1000000000 := by
    intro x y hxy; omega
  exact h0 t u h

/-- Issue then verify: for every keyed hash, key and user, and for clock values that do not
run backwards (`now1`, `now2`, `now3` read by `GenerateJWT`, `now` read by the validator)
with `now` before the expiry, `ParseJWT` accepts the token of `GenerateJWT` and returns
claims with the id and name of the user, the subject equal to the id in decimal, the issuer
"grocery-list-api", issued-at at most `now`, `now` before expires-at, and expires-at minus
issued-at at most 24 hours, with equality when `now1` and `now2` fall in the same second. -/
theorem GenerateJWT_ParseJWT (mac : MAC) (key : String) (user : User)
    (now1 now2 now3 now : Time) (h12 : now1 ≤ now2) (h23 : now2 ≤ now3) (h3 : now3 ≤ now)
    (hexp : now < NewNumericDate (now1 + 24 * Hour)) :
    ∃ token claims iat exp,
      GenerateJWT mac key now1 now2 now3 user = .ok token ∧
      ParseJWT mac key now token = .ok claims ∧
      claims.UserID = user.ID ∧ claims.Username = user.Username ∧
      claims.Registered.Subject = toString user.ID ∧
      claims.Registered.Issuer = "grocery-list-api" ∧
      claims.Registered.IssuedAt = some iat ∧ claims.Registered.ExpiresAt = some exp ∧
      iat ≤ now ∧ now < exp ∧ exp - iat ≤ 24 * Hour ∧
      (NewNumericDate now1 = NewNumericDate now2 → exp - iat = 24 * Hour) := by
  have hnbf : ¬ now < NewNumericDate now3 :=
    not_lt.2 (le_trans (NewNumericDate_le now3) h3)
  have hparse : ParseJWT mac key now
      { alg := "HS256"
        claims :=
          { UserID := user.ID
            Username := user.Username
            Registered :=
              { ExpiresAt := some (NewNumericDate (now1 + 24 * Hour))
                IssuedAt := some (NewNumericDate now2)
                NotBefore := some (NewNumericDate now3)
                Issuer := "grocery-list-api"
                Subject := toString user.ID } }
        signature := mac "HS256" key
          { UserID := user.ID
            Username := user.Username
            Registered :=
              { ExpiresAt := some (NewNumericDate (now1 + 24 * Hour))
                IssuedAt := some (NewNumericDate now2)
                NotBefore := some (NewNumericDate now3)
                Issuer := "grocery-list-api"
                Subject := toString user.ID } } } =
      .ok { UserID := user.ID
            Username := user.Username
            Registered :=
              { ExpiresAt := some (NewNumericDate (now1 + 24 * Hour))
                IssuedAt := some (NewNumericDate now2)
                NotBefore := some (NewNumericDate now3)
                Issuer := "grocery-list-api"
                Subject := toString user.ID } } := by
    simp [ParseJWT, ParseWithClaims, keyFunc, validateClaims, hexp, hnbf]
  refine ⟨_, _, NewNumericDate now2, NewNumericDate (now1 + 24 * Hour), rfl, hparse, rfl,
    rfl, rfl, rfl, rfl, rfl, ?_, hexp, ?_, ?_⟩
  · exact le_trans (NewNumericDate_le now2) (le_trans h23 h3)
  · have := NewNumericDate_mono now1 now2 h12
    rw [NewNumericDate_add_day]
    linarith
  · intro h
    rw [NewNumericDate_add_day, h]; ring

/-- C8 (evaluation at the failing clock values): when `GenerateJWT` reads the clock just
before a full second for the expiry (`1700000000.999999999`) and at the full second for
issued-at (`1700000001.000000000`), `ParseJWT` at that instant accepts the token, and the
claims it returns have expires-at minus issued-at equal to 23 h 59 min 59 s, not 24 hours. -/
theorem C8_expiry_minus_issued_at_one_second_short :
    GenerateJWT tagMAC (getJWTSecret "") 1700000000999999999 1700000001000000000
        1700000001000000000 ann =
      .ok { alg := "HS256"
            claims :=
              { UserID := 7
                Username := "ann"
                Registered :=
                  { Issuer := "grocery-list-api"
                    Subject := "7"
                    ExpiresAt := some 1700086400000000000
                    NotBefore := some 1700000001000000000
                    IssuedAt := some 1700000001000000000 } }
            signature := "dupa123dupa123dupa123dupa123dupa123dupa123/HS256/7" } ∧
    ParseJWT tagMAC (getJWTSecret "") 1700000001000000000
        { alg := "HS256"
          claims :=
            { UserID := 7
              Username := "ann"
              Registered :=
                { Issuer := "grocery-list-api"
                  Subject := "7"
                  ExpiresAt := some 1700086400000000000
                  NotBefore := some 1700000001000000000
                  IssuedAt := some 1700000001000000000 } }
          signature := "dupa123dupa123dupa123dupa123dupa123dupa123/HS256/7" } =
      .ok { UserID := 7
            Username := "ann"
            Registered :=
              { Issuer := "grocery-list-api"
                Subject := "7"
                ExpiresAt := some 1700086400000000000
                NotBefore := some 1700000001000000000
                IssuedAt := some 1700000001000000000 } } ∧
    (1700086400000000000 : Time) - 1700000001000000000 = 24 * Hour - Second ∧
    (1700086400000000000 : Time) - 1700000001000000000 ≠ 24 * Hour := by
  refine ⟨rfl, rfl, by decide, by decide⟩

end Grocery
